import Mathlib

/-!
# Verification of `split_pdf_by_pages` (src/main.py)

Shallow embedding of the PDF-splitting procedure `split_pdf_by_pages`.
The external PDF library (open, page count, page insertion, save) is
modelled by its observable effects: opening is summarised by an
`Option Nat` (`none` = open/parse failure, `some n` = a document with
`n` pages), saving a chunk is an oracle `saveOk : String → Bool`
telling whether persisting to a given path succeeds, and every side
effect of the run (closing the input document, opening/closing a chunk
document, inserting a page range, saving a file, creating the output
folder) is recorded as an `Event` in an ordered trace.
-/

/-- One observable side effect of a run of `split_pdf_by_pages`. -/
inductive Event where
  /-- `doc.close()` on the input document (source lines 35, 64, 67). -/
  | closeDoc : Event
  /-- `fitz.open()` creating a fresh empty chunk document (line 52). -/
  | openNewDoc : Event
  /-- `new_doc.insert_pdf(doc, from_page, to_page)` (line 53), with the
  0-indexed inclusive page range that is copied. -/
  | insertPages (fromPage toPage : Int) : Event
  /-- a successful `new_doc.save(path)` (line 58). -/
  | saveFile (path : String) : Event
  /-- `new_doc.close()` on a chunk document (lines 59, 63). -/
  | closeNewDoc : Event
  /-- `os.makedirs(folder)` (line 39). -/
  | mkdir (folder : String) : Event
deriving DecidableEq

/-- The outcome of a run, distinguishing the exit paths of the source. -/
inductive Outcome where
  /-- `fitz.open` raised: return at line 22. -/
  | openFailure : Outcome
  /-- `total_pages == 0`: return at line 26. -/
  | emptyDoc : Outcome
  /-- no valid split points survive: return at line 36. -/
  | noValidPoints : Outcome
  /-- `new_doc.save` raised for the given path: return at line 65. -/
  | writeFailure (path : String) : Outcome
  /-- the loop finished: fall through to line 67. -/
  | success : Outcome
deriving DecidableEq

/-- Python `sorted(set(split_pages))` (source line 29): the distinct
elements of the input, in ascending order. -/
def sortedSet (xs : List Int) : List Int :=
  List.insertionSort (· ≤ ·) xs.dedup

/-- Source lines 30–32: if the (sorted, deduplicated) list is non-empty
and its first element is `< 1` or its last element is `≥ total_pages`,
keep only the elements `p` with `1 ≤ p < total_pages`; otherwise leave
the list untouched. -/
def validateSplitPages (total_pages : Int) (sp : List Int) : List Int :=
  if sp.isEmpty then sp
  else if sp.headD 0 < 1 ∨ sp.getLastD 0 ≥ total_pages then
    sp.filter fun p => decide (1 ≤ p) && decide (p < total_pages)
  else sp

/-- Spec-side reformulation of the validation step, following the spec's
words: every point must satisfy `1 ≤ p < total_pages`, out-of-range
points are dropped unconditionally. Compared with `validateSplitPages`
(the source's guarded version) in the refinement claim C9. -/
def filterValidSpec (total_pages : Int) (sp : List Int) : List Int :=
  sp.filter fun p => decide (1 ≤ p) && decide (p < total_pages)

/-- The split points actually used for chunking: source line 29 followed
by lines 30–32. -/
def computeSplitPoints (total_pages : Int) (xs : List Int) : List Int :=
  validateSplitPages total_pages (sortedSet xs)

/-- Source line 43: `boundaries = [0] + split_pages + [total_pages]`. -/
def boundaries (total_pages : Int) (sp : List Int) : List Int :=
  0 :: (sp ++ [total_pages])

/-- The adjacent pairs `(boundaries[i], boundaries[i+1])` iterated by the
loop at lines 44–46. -/
def adjacentPairs : List Int → List (Int × Int)
  | a :: b :: rest => (a, b) :: adjacentPairs (b :: rest)
  | _ => []

/-- Source line 55 without the folder: the file name
`chunk_` + (start+1) + `_to_` + end + `.pdf` of a chunk. -/
def chunkFileName (start_page end_page : Int) : String :=
  "chunk_" ++ toString (start_page + 1) ++ "_to_" ++ toString end_page ++ ".pdf"

/-- `os.path.join(output_folder, name)` for a relative file name. -/
def joinPath (folder name : String) : String :=
  folder ++ "/" ++ name

/-- The output paths of a list of chunks, in loop order. -/
def chunkPaths (folder : String) (pairs : List (Int × Int)) : List String :=
  pairs.map fun p => joinPath folder (chunkFileName p.1 p.2)

/-- The loop at source lines 44–65: for each boundary pair, skip it if
`start ≥ end` (line 48), otherwise open a fresh document, insert pages
`start .. end-1`, and try to save it; on success close the chunk document
and continue, on failure close the chunk document, close the input
document and return (lines 61–65). An exhausted loop closes the input
document (line 67). Returns the event trace and the outcome. -/
def writeChunks (saveOk : String → Bool) (folder : String) :
    List (Int × Int) → List Event × Outcome
  | [] => ([Event.closeDoc], Outcome.success)
  | (s, e) :: rest =>
    if s ≥ e then
      writeChunks saveOk folder rest
    else
      let path := joinPath folder (chunkFileName s e)
      if saveOk path then
        let r := writeChunks saveOk folder rest
        (Event.openNewDoc :: Event.insertPages s (e - 1) ::
          Event.saveFile path :: Event.closeNewDoc :: r.1, r.2)
      else
        ([Event.openNewDoc, Event.insertPages s (e - 1),
          Event.closeNewDoc, Event.closeDoc], Outcome.writeFailure path)

/-- Shallow embedding of `split_pdf_by_pages` (source lines 5–68).
`openResult` summarises the `fitz.open` attempt (`none`: the `except`
branch at line 20 returns with no events); `folderExists` is the
`os.path.exists` test at line 38; `saveOk` tells which save calls
succeed. Note that the `total_pages == 0` early return (line 26) emits
no `closeDoc` event, exactly as in the source, which returns there
without calling `doc.close()`. -/
def split_pdf_by_pages (openResult : Option Nat) (split_pages : List Int)
    (folderExists : Bool) (saveOk : String → Bool)
    (output_folder : String := "output_chunks") : List Event × Outcome :=
  match openResult with
  | none => ([], Outcome.openFailure)
  | some total_pages =>
    if total_pages = 0 then
      ([], Outcome.emptyDoc)
    else
      let sp := computeSplitPoints (total_pages : Int) split_pages
      if sp.isEmpty then
        ([Event.closeDoc], Outcome.noValidPoints)
      else
        let pre := if folderExists then [] else [Event.mkdir output_folder]
        let r := writeChunks saveOk output_folder
          (adjacentPairs (boundaries (total_pages : Int) sp))
        (pre ++ r.1, r.2)

/-- The paths of the files actually written during a run, in order. -/
def savedFiles (tr : List Event) : List String :=
  tr.filterMap fun e =>
    match e with
    | Event.saveFile p => some p
    | _ => none

/-- The first path in the list on which saving fails, if any. -/
def firstFailing (saveOk : String → Bool) : List String → Option String
  | [] => none
  | p :: rest => if saveOk p then firstFailing saveOk rest else some p

/-- The prefix of paths on which saving succeeds, up to the first
failure. -/
def succeedingPaths (saveOk : String → Bool) : List String → List String
  | [] => []
  | p :: rest => if saveOk p then p :: succeedingPaths saveOk rest else []

/-! ## Basic lemmas about the normalisation and validation steps -/

theorem sortedSet_sorted (xs : List Int) : (sortedSet xs).Sorted (· ≤ ·) :=
  List.sorted_insertionSort _ _

theorem sortedSet_nodup (xs : List Int) : (sortedSet xs).Nodup :=
  (List.perm_insertionSort _ _).nodup_iff.mpr xs.nodup_dedup

theorem mem_sortedSet {p : Int} {xs : List Int} :
    p ∈ sortedSet xs ↔ p ∈ xs := by
  unfold sortedSet
  rw [(List.perm_insertionSort _ _).mem_iff, List.mem_dedup]

theorem sortedSet_sorted_lt (xs : List Int) : (sortedSet xs).Sorted (· < ·) :=
  (sortedSet_sorted xs).lt_of_le (sortedSet_nodup xs)

theorem le_getLastD_of_sorted :
    ∀ {l : List Int}, l.Sorted (· ≤ ·) → ∀ {x : Int}, x ∈ l → x ≤ l.getLastD 0
  | [], _, _, hx => absurd hx (List.not_mem_nil _)
  | [a], _, x, hx => by
      simp only [List.mem_singleton] at hx
      simp [hx]
  | a :: b :: t, h, x, hx => by
      rcases List.sorted_cons.mp h with ⟨ha, hbt⟩
      rcases List.mem_cons.mp hx with rfl | hx'
      · calc x ≤ b := ha b (List.mem_cons_self _ _)
          _ ≤ (b :: t).getLastD 0 :=
            le_getLastD_of_sorted hbt (List.mem_cons_self _ _)
      · exact le_getLastD_of_sorted hbt hx'

theorem headD_le_of_sorted {l : List Int} (h : l.Sorted (· ≤ ·))
    {x : Int} (hx : x ∈ l) : l.headD 0 ≤ x := by
  cases l with
  | nil => exact absurd hx (List.not_mem_nil _)
  | cons a t =>
      rcases List.mem_cons.mp hx with rfl | hx'
      · simp
      · simpa using (List.sorted_cons.mp h).1 x hx'

/-- Claim C9's core: on a sorted list, the guarded filter of the source
(which inspects only the first and last elements before filtering) agrees
with the unconditional filter described by the spec. -/
theorem validateSplitPages_eq_filterValidSpec {t : Int} {sp : List Int}
    (h : sp.Sorted (· ≤ ·)) :
    validateSplitPages t sp = filterValidSpec t sp := by
  unfold validateSplitPages filterValidSpec
  by_cases hemp : sp.isEmpty
  · rw [if_pos hemp, List.isEmpty_iff.mp hemp, List.filter_nil]
  · rw [if_neg hemp]
    by_cases hguard : sp.headD 0 < 1 ∨ sp.getLastD 0 ≥ t
    · rw [if_pos hguard]
    · rw [if_neg hguard]
      push_neg at hguard
      refine (List.filter_eq_self.mpr fun a ha => ?_).symm
      have h1 : (1 : Int) ≤ a := le_trans hguard.1 (headD_le_of_sorted h ha)
      have h2 : a < t := lt_of_le_of_lt (le_getLastD_of_sorted h ha) hguard.2
      simp [h1, h2]

theorem mem_computeSplitPoints {t p : Int} {xs : List Int} :
    p ∈ computeSplitPoints t xs ↔ p ∈ xs ∧ 1 ≤ p ∧ p < t := by
  unfold computeSplitPoints
  rw [validateSplitPages_eq_filterValidSpec (sortedSet_sorted xs)]
  unfold filterValidSpec
  rw [List.mem_filter, mem_sortedSet]
  simp [and_assoc]

theorem computeSplitPoints_sorted_lt (t : Int) (xs : List Int) :
    (computeSplitPoints t xs).Sorted (· < ·) := by
  unfold computeSplitPoints
  rw [validateSplitPages_eq_filterValidSpec (sortedSet_sorted xs)]
  exact (sortedSet_sorted_lt xs).filter _

/-! ## Lemmas about boundaries and their adjacent pairs -/

theorem getLastD_append_singleton :
    ∀ (l : List Int) (t d : Int), (l ++ [t]).getLastD d = t
  | [], _, _ => rfl
  | _ :: l, t, _ => by
      rw [List.cons_append, List.getLastD_cons, getLastD_append_singleton l t]

theorem boundaries_length (t : Int) (sp : List Int) :
    (boundaries t sp).length = sp.length + 2 := by
  simp [boundaries]

theorem boundaries_sorted_lt {t : Int} (h1 : 1 ≤ t) (xs : List Int) :
    (boundaries t (computeSplitPoints t xs)).Sorted (· < ·) := by
  unfold boundaries
  rw [List.sorted_cons]
  constructor
  · intro b hb
    rcases List.mem_append.mp hb with hb' | hb'
    · exact lt_of_lt_of_le one_pos (mem_computeSplitPoints.mp hb').2.1
    · rw [List.mem_singleton] at hb'
      omega
  · show List.Pairwise _ _
    rw [List.pairwise_append]
    refine ⟨computeSplitPoints_sorted_lt t xs, List.pairwise_singleton _ _, ?_⟩
    intro a ha b hb
    rw [List.mem_singleton] at hb
    subst hb
    exact (mem_computeSplitPoints.mp ha).2.2

theorem adjacentPairs_length : ∀ l : List Int,
    (adjacentPairs l).length = l.length - 1
  | [] => rfl
  | [_] => rfl
  | _ :: b :: t => by
      rw [adjacentPairs, List.length_cons, adjacentPairs_length (b :: t)]
      simp

theorem adjacentPairs_fst_mem :
    ∀ {l : List Int} {p : Int × Int}, p ∈ adjacentPairs l → p.1 ∈ l
  | [], _, hp => absurd hp (List.not_mem_nil _)
  | [_], _, hp => absurd hp (List.not_mem_nil _)
  | a :: b :: t, p, hp => by
      rcases List.mem_cons.mp hp with rfl | hp'
      · exact List.mem_cons_self _ _
      · exact List.mem_cons_of_mem a (adjacentPairs_fst_mem hp')

theorem adjacentPairs_rel {R : Int → Int → Prop} :
    ∀ {l : List Int}, l.Chain' R → ∀ p ∈ adjacentPairs l, R p.1 p.2
  | [], _, _, hp => absurd hp (List.not_mem_nil _)
  | [_], _, _, hp => absurd hp (List.not_mem_nil _)
  | _ :: b :: t, h, p, hp => by
      rw [List.chain'_cons] at h
      rcases List.mem_cons.mp hp with rfl | hp'
      · exact h.1
      · exact adjacentPairs_rel h.2 p hp'

theorem adjacentPairs_pairwise :
    ∀ {l : List Int}, l.Sorted (· ≤ ·) →
      (adjacentPairs l).Pairwise fun p q => p.2 ≤ q.1
  | [], _ => List.Pairwise.nil
  | [_], _ => List.Pairwise.nil
  | a :: b :: t, h => by
      rw [adjacentPairs, List.pairwise_cons]
      have hbt : (b :: t).Sorted (· ≤ ·) := (List.sorted_cons.mp h).2
      refine ⟨fun q hq => ?_, adjacentPairs_pairwise hbt⟩
      have hq1 : q.1 ∈ b :: t := adjacentPairs_fst_mem hq
      rcases List.mem_cons.mp hq1 with he | hq1'
      · rw [he]
      · exact (List.sorted_cons.mp hbt).1 _ hq1'

theorem getLastD_cons_default (b d : Int) (t : List Int) :
    (b :: t).getLastD d = (b :: t).getLastD 0 := by
  rw [List.getLastD_cons, List.getLastD_cons]

theorem adjacentPairs_cover :
    ∀ (a : Int) (l : List Int), (a :: l).Sorted (· ≤ ·) → ∀ x : Int,
      (∃ p ∈ adjacentPairs (a :: l), p.1 ≤ x ∧ x < p.2) ↔
        (a ≤ x ∧ x < (a :: l).getLastD 0)
  | a, [], _, x => by
      constructor
      · rintro ⟨p, hp, -⟩
        exact absurd hp (List.not_mem_nil _)
      · rintro ⟨hx1, hx2⟩
        rw [List.getLastD_cons, List.getLastD_nil] at hx2
        omega
  | a, b :: t, h, x => by
      have hab : a ≤ b := (List.sorted_cons.mp h).1 b (List.mem_cons_self _ _)
      have hbt : (b :: t).Sorted (· ≤ ·) := (List.sorted_cons.mp h).2
      have hbl : b ≤ (b :: t).getLastD 0 :=
        le_getLastD_of_sorted hbt (List.mem_cons_self _ _)
      rw [adjacentPairs, List.getLastD_cons, getLastD_cons_default]
      constructor
      · rintro ⟨p, hp, hx1, hx2⟩
        rcases List.mem_cons.mp hp with rfl | hp'
        · simp only at hx1 hx2
          have := (adjacentPairs_cover b t hbt x).mp
          omega
        · have := (adjacentPairs_cover b t hbt x).mp ⟨p, hp', hx1, hx2⟩
          omega
      · rintro ⟨hx1, hx2⟩
        by_cases hxb : x < b
        · exact ⟨(a, b), List.mem_cons_self _ _, hx1, hxb⟩
        · push_neg at hxb
          obtain ⟨p, hp, hpx⟩ := (adjacentPairs_cover b t hbt x).mpr ⟨hxb, hx2⟩
          exact ⟨p, List.mem_cons_of_mem _ hp, hpx⟩

/-! ## Lemmas about the chunk-writing loop -/

theorem writeChunks_all_ok (saveOk : String → Bool) (folder : String) :
    ∀ pairs : List (Int × Int),
      (∀ p ∈ pairs, saveOk (joinPath folder (chunkFileName p.1 p.2)) = true) →
      savedFiles (writeChunks saveOk folder pairs).1 =
          chunkPaths folder (pairs.filter fun p => decide (p.1 < p.2)) ∧
        (writeChunks saveOk folder pairs).2 = Outcome.success ∧
        Event.closeDoc ∈ (writeChunks saveOk folder pairs).1
  | [], _ => by
      refine ⟨rfl, rfl, ?_⟩
      rw [writeChunks]
      exact List.mem_singleton.mpr rfl
  | (s, e) :: rest, hall => by
      have hrest : ∀ p ∈ rest, saveOk (joinPath folder (chunkFileName p.1 p.2)) = true :=
        fun p hp => hall p (List.mem_cons_of_mem _ hp)
      have ih := writeChunks_all_ok saveOk folder rest hrest
      by_cases hse : s ≥ e
      · have hfilter : (((s, e) :: rest).filter fun p => decide (p.1 < p.2)) =
            rest.filter fun p => decide (p.1 < p.2) := by
          rw [List.filter_cons]
          simp only [decide_eq_true_eq]
          rw [if_neg (by omega)]
        rw [writeChunks, if_pos hse, hfilter]
        exact ih
      · have hok : saveOk (joinPath folder (chunkFileName s e)) = true :=
          hall (s, e) (List.mem_cons_self _ _)
        have hfilter : (((s, e) :: rest).filter fun p => decide (p.1 < p.2)) =
            (s, e) :: rest.filter fun p => decide (p.1 < p.2) := by
          rw [List.filter_cons]
          simp only [decide_eq_true_eq]
          rw [if_pos (by omega)]
        rw [writeChunks, if_neg hse, hfilter]
        simp only [hok, if_pos]
        refine ⟨?_, ih.2.1, ?_⟩
      -- the saved files are the head path followed by the recursive ones
        · rw [chunkPaths, List.map_cons]
          simpa [savedFiles, chunkPaths] using ih.1
        · simp only [List.mem_cons]
          exact Or.inr (Or.inr (Or.inr (Or.inr ih.2.2)))

theorem writeChunks_first_fail (saveOk : String → Bool) (folder : String) :
    ∀ pairs : List (Int × Int), (∀ p ∈ pairs, p.1 < p.2) →
      ∀ q : String, firstFailing saveOk (chunkPaths folder pairs) = some q →
      savedFiles (writeChunks saveOk folder pairs).1 =
          succeedingPaths saveOk (chunkPaths folder pairs) ∧
        (writeChunks saveOk folder pairs).1.count Event.openNewDoc =
          (succeedingPaths saveOk (chunkPaths folder pairs)).length + 1 ∧
        (writeChunks saveOk folder pairs).1.count Event.closeNewDoc =
          (succeedingPaths saveOk (chunkPaths folder pairs)).length + 1 ∧
        Event.closeDoc ∈ (writeChunks saveOk folder pairs).1 ∧
        (writeChunks saveOk folder pairs).2 = Outcome.writeFailure q
  | [], _, q, hfail => by
      rw [chunkPaths, List.map_nil, firstFailing] at hfail
      exact absurd hfail (by simp)
  | (s, e) :: rest, hnd, q, hfail => by
      have hse : ¬ s ≥ e := by
        have := hnd (s, e) (List.mem_cons_self _ _)
        omega
      have hndr : ∀ p ∈ rest, p.1 < p.2 :=
        fun p hp => hnd p (List.mem_cons_of_mem _ hp)
      rw [chunkPaths, List.map_cons] at hfail
      rw [writeChunks, if_neg hse, chunkPaths, List.map_cons, succeedingPaths]
      by_cases hok : saveOk (joinPath folder (chunkFileName s e)) = true
      · rw [firstFailing, if_pos hok] at hfail
        have ih := writeChunks_first_fail saveOk folder rest hndr q hfail
        rw [if_pos hok]
        simp only [hok, if_pos]
        refine ⟨?_, ?_, ?_, ?_, ih.2.2.2.2⟩
        · simpa [savedFiles, chunkPaths] using ih.1
        · rw [chunkPaths] at ih
          have hc := ih.2.1
          simp only [List.count_cons, List.length_cons]
          simp
          omega
        · rw [chunkPaths] at ih
          have hc := ih.2.2.1
          simp only [List.count_cons, List.length_cons]
          simp
          omega
        · simp only [List.mem_cons]
          exact Or.inr (Or.inr (Or.inr (Or.inr ih.2.2.2.1)))
      · rw [firstFailing, if_neg hok] at hfail
        rw [if_neg hok]
        injection hfail with hq
        rw [if_neg hok]
        subst hq
        exact ⟨rfl, rfl, rfl, by simp, rfl⟩

/-! ## Unfolding the main procedure on its principal paths -/

theorem savedFiles_append (l1 l2 : List Event) :
    savedFiles (l1 ++ l2) = savedFiles l1 ++ savedFiles l2 :=
  List.filterMap_append l1 l2 _

theorem mkdirPre_savedFiles (fE : Bool) (folder : String) :
    savedFiles (if fE then [] else [Event.mkdir folder]) = [] := by
  cases fE <;> rfl

theorem mkdirPre_count (fE : Bool) (folder : String) (e : Event)
    (h : ∀ d : String, e ≠ Event.mkdir d) :
    (if fE then [] else [Event.mkdir folder]).count e = 0 := by
  cases fE
  · simp [List.count_cons, (h folder).symm]
  · simp

theorem split_run (total_pages : Nat) (xs : List Int) (fE : Bool)
    (saveOk : String → Bool) (folder : String)
    (h1 : 1 ≤ total_pages)
    (h2 : computeSplitPoints (total_pages : Int) xs ≠ []) :
    split_pdf_by_pages (some total_pages) xs fE saveOk folder =
      ((if fE then [] else [Event.mkdir folder]) ++
          (writeChunks saveOk folder (adjacentPairs (boundaries (total_pages : Int)
            (computeSplitPoints (total_pages : Int) xs)))).1,
        (writeChunks saveOk folder (adjacentPairs (boundaries (total_pages : Int)
          (computeSplitPoints (total_pages : Int) xs)))).2) := by
  have h0 : total_pages ≠ 0 := by omega
  simp only [split_pdf_by_pages, if_neg h0]
  rw [if_neg (by simpa [List.isEmpty_iff] using h2)]

theorem boundaries_pairs_nondegenerate (total_pages : Nat) (xs : List Int)
    (h1 : 1 ≤ total_pages) :
    ∀ p ∈ adjacentPairs (boundaries (total_pages : Int)
      (computeSplitPoints (total_pages : Int) xs)), p.1 < p.2 :=
  adjacentPairs_rel
    ((boundaries_sorted_lt (by exact_mod_cast h1) xs).chain')

/-! ## The claims -/

/-- Claim C1 (partition coverage): for every `total_pages ≥ 1` and every
input list of split points, the non-degenerate chunks — the half-open
intervals over adjacent entries of
`boundaries = [0] + sorted valid points + [total_pages]` — exactly cover
`[0, total_pages)`: every page index in that range lies in exactly one
chunk (coverage plus pairwise disjointness of the ordered intervals). -/
theorem partition_coverage (total_pages : Nat) (xs : List Int)
    (h1 : 1 ≤ total_pages) :
    (∀ x : Int, (0 ≤ x ∧ x < (total_pages : Int)) ↔
        ∃ p ∈ (adjacentPairs (boundaries (total_pages : Int)
            (computeSplitPoints (total_pages : Int) xs))).filter
            (fun p => decide (p.1 < p.2)),
          p.1 ≤ x ∧ x < p.2) ∧
      ((adjacentPairs (boundaries (total_pages : Int)
          (computeSplitPoints (total_pages : Int) xs))).filter
          (fun p => decide (p.1 < p.2))).Pairwise (fun p q => p.2 ≤ q.1) := by
  have h1' : (1 : Int) ≤ (total_pages : Int) := by exact_mod_cast h1
  have hlt := boundaries_sorted_lt h1' xs
  have hle : (boundaries (total_pages : Int)
      (computeSplitPoints (total_pages : Int) xs)).Sorted (· ≤ ·) :=
    hlt.imp (fun h => le_of_lt h)
  have hfe : ((adjacentPairs (boundaries (total_pages : Int)
      (computeSplitPoints (total_pages : Int) xs))).filter
      (fun p => decide (p.1 < p.2))) =
      adjacentPairs (boundaries (total_pages : Int)
        (computeSplitPoints (total_pages : Int) xs)) :=
    List.filter_eq_self.mpr fun p hp => by
      simpa using boundaries_pairs_nondegenerate total_pages xs h1 p hp
  rw [hfe]
  constructor
  · intro x
    have hcov := adjacentPairs_cover 0
      ((computeSplitPoints (total_pages : Int) xs) ++ [(total_pages : Int)])
      (by simpa [boundaries] using hle) x
    have hlast : (((computeSplitPoints (total_pages : Int) xs) ++
        [(total_pages : Int)]) : List Int).getLastD 0 = (total_pages : Int) := by
      rw [getLastD_append_singleton]
    rw [List.getLastD_cons, hlast] at hcov
    rw [boundaries]
    exact hcov.symm
  · exact adjacentPairs_pairwise hle

/-- Witness for C1 at `total_pages = 100`, `split_pages = [21, 77]`. -/
theorem partition_coverage_witness :
    1 ≤ 100 ∧
      ((∀ x : Int, (0 ≤ x ∧ x < ((100 : Nat) : Int)) ↔
          ∃ p ∈ (adjacentPairs (boundaries ((100 : Nat) : Int)
              (computeSplitPoints ((100 : Nat) : Int) [21, 77]))).filter
              (fun p => decide (p.1 < p.2)),
            p.1 ≤ x ∧ x < p.2) ∧
        ((adjacentPairs (boundaries ((100 : Nat) : Int)
            (computeSplitPoints ((100 : Nat) : Int) [21, 77]))).filter
            (fun p => decide (p.1 < p.2))).Pairwise (fun p q => p.2 ≤ q.1)) :=
  ⟨by decide, partition_coverage 100 [21, 77] (by decide)⟩

/-- Claim C3 (bounds filtering): for every `total_pages ≥ 1` and every
input sequence, a point is used for chunking exactly when it occurs in
the input and satisfies `1 ≤ p < total_pages`; out-of-range points are
silently dropped. -/
theorem bounds_filtering (total_pages : Nat) (xs : List Int)
    (h1 : 1 ≤ total_pages) :
    ∀ p : Int, p ∈ computeSplitPoints (total_pages : Int) xs ↔
      (p ∈ xs ∧ 1 ≤ p ∧ p < (total_pages : Int)) :=
  fun _ => mem_computeSplitPoints

/-- Witness for C3 at `total_pages = 100`, input `[0, 21, 200, 21]`. -/
theorem bounds_filtering_witness :
    1 ≤ 100 ∧
      ∀ p : Int, p ∈ computeSplitPoints ((100 : Nat) : Int) [0, 21, 200, 21] ↔
        (p ∈ ([0, 21, 200, 21] : List Int) ∧ 1 ≤ p ∧ p < ((100 : Nat) : Int)) :=
  ⟨by decide, bounds_filtering 100 [0, 21, 200, 21] (by decide)⟩

/-- Claim C5 (normalization idempotence): two inputs containing the same
set of integers — any order, arbitrary duplicates — give runs with
identical traces and outcomes, for every open result, folder state, save
oracle and output folder. -/
theorem normalization_idempotence (openResult : Option Nat)
    (l1 l2 : List Int) (fE : Bool) (saveOk : String → Bool) (folder : String)
    (h : ∀ x : Int, x ∈ l1 ↔ x ∈ l2) :
    split_pdf_by_pages openResult l1 fE saveOk folder =
      split_pdf_by_pages openResult l2 fE saveOk folder := by
  have hs : sortedSet l1 = sortedSet l2 := by
    refine List.eq_of_perm_of_sorted ?_ (sortedSet_sorted l1) (sortedSet_sorted l2)
    refine (List.perm_ext_iff_of_nodup (sortedSet_nodup l1) (sortedSet_nodup l2)).mpr ?_
    intro a
    rw [mem_sortedSet, mem_sortedSet]
    exact h a
  cases openResult with
  | none => rfl
  | some t => simp only [split_pdf_by_pages, computeSplitPoints, hs]

/-- Witness for C5: the unsorted duplicate-containing `[77, 21, 21]`
behaves like `[21, 77]` on a 100-page document. -/
theorem normalization_idempotence_witness :
    split_pdf_by_pages (some 100) [77, 21, 21] false (fun _ => true) "output_chunks" =
      split_pdf_by_pages (some 100) [21, 77] false (fun _ => true) "output_chunks" :=
  normalization_idempotence (some 100) [77, 21, 21] [21, 77] false
    (fun _ => true) "output_chunks"
    (by intro x; simp only [List.mem_cons, List.mem_singleton,
          List.not_mem_nil, or_false]; omega)

/-- Claim C7 (boundaries invariant): for every `total_pages ≥ 1` and
every non-empty filtered split-point set, the boundaries sequence
`0 :: points ++ [total_pages]` is non-decreasing (each entry at most the
next) and has length the number of valid split points plus two. -/
theorem boundaries_invariant (total_pages : Nat) (xs : List Int)
    (h1 : 1 ≤ total_pages)
    (h2 : computeSplitPoints (total_pages : Int) xs ≠ []) :
    (boundaries (total_pages : Int)
        (computeSplitPoints (total_pages : Int) xs)).Chain' (· ≤ ·) ∧
      (boundaries (total_pages : Int)
          (computeSplitPoints (total_pages : Int) xs)).length =
        (computeSplitPoints (total_pages : Int) xs).length + 2 := by
  have h1' : (1 : Int) ≤ (total_pages : Int) := by exact_mod_cast h1
  exact ⟨((boundaries_sorted_lt h1' xs).imp fun h => le_of_lt h).chain',
    boundaries_length _ _⟩

/-- Witness for C7 at `total_pages = 100`, input `[21, 77]`. -/
theorem boundaries_invariant_witness :
    (1 ≤ 100 ∧ computeSplitPoints ((100 : Nat) : Int) [21, 77] ≠ []) ∧
      ((boundaries ((100 : Nat) : Int)
          (computeSplitPoints ((100 : Nat) : Int) [21, 77])).Chain' (· ≤ ·) ∧
        (boundaries ((100 : Nat) : Int)
            (computeSplitPoints ((100 : Nat) : Int) [21, 77])).length =
          (computeSplitPoints ((100 : Nat) : Int) [21, 77]).length + 2) :=
  ⟨⟨by decide, by decide⟩, boundaries_invariant 100 [21, 77] (by decide) (by decide)⟩

/-- Claim C9 (validation equivalence): the source's guarded validation —
which inspects only the first and last element of the sorted
deduplicated list and filters only when one of them is out of range —
computes exactly the unconditional filter keeping the points `p` with
`1 ≤ p < total_pages`. -/
theorem validation_equivalence (total_pages : Nat) (xs : List Int)
    (h1 : 1 ≤ total_pages) :
    validateSplitPages (total_pages : Int) (sortedSet xs) =
      filterValidSpec (total_pages : Int) (sortedSet xs) :=
  validateSplitPages_eq_filterValidSpec (sortedSet_sorted xs)

/-- Witness for C9 at `total_pages = 100`, input `[0, 21, 200, 21]`. -/
theorem validation_equivalence_witness :
    1 ≤ 100 ∧
      validateSplitPages ((100 : Nat) : Int) (sortedSet [0, 21, 200, 21]) =
        filterValidSpec ((100 : Nat) : Int) (sortedSet [0, 21, 200, 21]) :=
  ⟨by decide, validation_equivalence 100 [0, 21, 200, 21] (by decide)⟩

/-- Claim C6 (no-op conditions): a zero-page document produces no output
files and no output folder; likewise a non-empty document all of whose
split points are filtered out produces no output files and no output
folder. -/
theorem noop_conditions :
    (∀ (xs : List Int) (fE : Bool) (saveOk : String → Bool) (folder : String),
        savedFiles (split_pdf_by_pages (some 0) xs fE saveOk folder).1 = [] ∧
          ∀ d : String,
            Event.mkdir d ∉ (split_pdf_by_pages (some 0) xs fE saveOk folder).1) ∧
      ∀ (total_pages : Nat) (xs : List Int) (fE : Bool) (saveOk : String → Bool)
          (folder : String), 1 ≤ total_pages →
        computeSplitPoints (total_pages : Int) xs = [] →
        savedFiles (split_pdf_by_pages (some total_pages) xs fE saveOk folder).1 = [] ∧
          ∀ d : String,
            Event.mkdir d ∉
              (split_pdf_by_pages (some total_pages) xs fE saveOk folder).1 := by
  constructor
  · intro xs fE saveOk folder
    refine ⟨rfl, fun d => ?_⟩
    simp [split_pdf_by_pages]
  · intro total_pages xs fE saveOk folder h1 h2
    have h0 : total_pages ≠ 0 := by omega
    have hrun : split_pdf_by_pages (some total_pages) xs fE saveOk folder =
        ([Event.closeDoc], Outcome.noValidPoints) := by
      simp only [split_pdf_by_pages, if_neg h0]
      rw [if_pos (by simp [List.isEmpty_iff, h2])]
    rw [hrun]
    exact ⟨rfl, fun d => by simp [savedFiles]⟩

/-- Witness for C6: a 0-page document, and a 5-page document whose split
points `[0, 7]` are all out of range. -/
theorem noop_conditions_witness :
    (savedFiles (split_pdf_by_pages (some 0) [3] true (fun _ => true)
        "output_chunks").1 = []) ∧
      (1 ≤ 5 ∧ computeSplitPoints ((5 : Nat) : Int) [0, 7] = []) ∧
      savedFiles (split_pdf_by_pages (some 5) [0, 7] false (fun _ => true)
          "output_chunks").1 = [] ∧
      Event.mkdir "output_chunks" ∉
        (split_pdf_by_pages (some 5) [0, 7] false (fun _ => true)
          "output_chunks").1 :=
  ⟨(noop_conditions.1 [3] true (fun _ => true) "output_chunks").1,
    ⟨by decide, by decide⟩,
    (noop_conditions.2 5 [0, 7] false (fun _ => true) "output_chunks"
      (by decide) (by decide)).1,
    (noop_conditions.2 5 [0, 7] false (fun _ => true) "output_chunks"
      (by decide) (by decide)).2 "output_chunks"⟩

/-- Claim C8 (concrete naming and chunking): on a 100-page document with
split points `[21, 77]`, the boundaries are `[0, 21, 77, 100]` and the
run writes exactly the three files `chunk_1_to_21.pdf` (0-indexed pages
0–20), `chunk_22_to_77.pdf` (pages 21–76) and `chunk_78_to_100.pdf`
(pages 77–99) into the output folder, in that order; in general a chunk
`[start, end)` is saved under `chunk_` + (start+1) + `_to_` + end +
`.pdf`. -/
theorem concrete_naming :
    split_pdf_by_pages (some 100) [21, 77] false (fun _ => true) "output_chunks" =
        ([Event.mkdir "output_chunks",
          Event.openNewDoc, Event.insertPages 0 20,
          Event.saveFile "output_chunks/chunk_1_to_21.pdf", Event.closeNewDoc,
          Event.openNewDoc, Event.insertPages 21 76,
          Event.saveFile "output_chunks/chunk_22_to_77.pdf", Event.closeNewDoc,
          Event.openNewDoc, Event.insertPages 77 99,
          Event.saveFile "output_chunks/chunk_78_to_100.pdf", Event.closeNewDoc,
          Event.closeDoc], Outcome.success) ∧
      boundaries ((100 : Nat) : Int)
          (computeSplitPoints ((100 : Nat) : Int) [21, 77]) = [0, 21, 77, 100] ∧
      ∀ s e : Int, chunkFileName s e =
        "chunk_" ++ toString (s + 1) ++ "_to_" ++ toString e ++ ".pdf" :=
  ⟨by decide, by decide, fun _ _ => rfl⟩

/-- Claim C2 (resource release on every exit path) fails on the code: on
the empty-document path the successfully opened input document is never
closed — the `return` at source line 26 precedes every `doc.close()`
call. The run below opens a 0-page document; its trace contains no
`closeDoc` event. -/
theorem input_doc_not_closed_on_empty_document :
    split_pdf_by_pages (some 0) [32, 50] true (fun _ => true) "output_chunks" =
        ([], Outcome.emptyDoc) ∧
      Event.closeDoc ∉
        (split_pdf_by_pages (some 0) [32, 50] true (fun _ => true)
          "output_chunks").1 := by
  decide

/-- Claim C10 (no degenerate chunks after validation): for `total_pages ≥ 1`
and a non-empty validated split-point set, the boundaries are strictly
increasing, every adjacent pair is non-degenerate (the skip branch is
never taken), and a run without write failures saves exactly
(number of valid split points) + 1 files and succeeds. -/
theorem no_degenerate_chunks (total_pages : Nat) (xs : List Int)
    (h1 : 1 ≤ total_pages)
    (h2 : computeSplitPoints (total_pages : Int) xs ≠ []) :
    (boundaries (total_pages : Int)
        (computeSplitPoints (total_pages : Int) xs)).Sorted (· < ·) ∧
      (∀ p ∈ adjacentPairs (boundaries (total_pages : Int)
          (computeSplitPoints (total_pages : Int) xs)), p.1 < p.2) ∧
      ∀ (fE : Bool) (folder : String),
        (savedFiles (split_pdf_by_pages (some total_pages) xs fE
              (fun _ => true) folder).1).length =
            (computeSplitPoints (total_pages : Int) xs).length + 1 ∧
          (split_pdf_by_pages (some total_pages) xs fE
            (fun _ => true) folder).2 = Outcome.success := by
  have h1' : (1 : Int) ≤ (total_pages : Int) := by exact_mod_cast h1
  refine ⟨boundaries_sorted_lt h1' xs,
    boundaries_pairs_nondegenerate total_pages xs h1, ?_⟩
  intro fE folder
  rw [split_run total_pages xs fE (fun _ => true) folder h1 h2]
  have hall := writeChunks_all_ok (fun _ => true) folder
    (adjacentPairs (boundaries (total_pages : Int)
      (computeSplitPoints (total_pages : Int) xs))) (fun _ _ => rfl)
  have hfe : ((adjacentPairs (boundaries (total_pages : Int)
      (computeSplitPoints (total_pages : Int) xs))).filter
      (fun p => decide (p.1 < p.2))) =
      adjacentPairs (boundaries (total_pages : Int)
        (computeSplitPoints (total_pages : Int) xs)) :=
    List.filter_eq_self.mpr fun p hp => by
      simpa using boundaries_pairs_nondegenerate total_pages xs h1 p hp
  constructor
  · rw [savedFiles_append, mkdirPre_savedFiles, List.nil_append, hall.1, hfe]
    rw [chunkPaths, List.length_map, adjacentPairs_length, boundaries_length]
    simp
  · exact hall.2.1

/-- Witness for C10 at `total_pages = 100`, input `[21, 77]`. -/
theorem no_degenerate_chunks_witness :
    (1 ≤ 100 ∧ computeSplitPoints ((100 : Nat) : Int) [21, 77] ≠ []) ∧
      ((boundaries ((100 : Nat) : Int)
          (computeSplitPoints ((100 : Nat) : Int) [21, 77])).Sorted (· < ·) ∧
        (∀ p ∈ adjacentPairs (boundaries ((100 : Nat) : Int)
            (computeSplitPoints ((100 : Nat) : Int) [21, 77])), p.1 < p.2) ∧
        ∀ (fE : Bool) (folder : String),
          (savedFiles (split_pdf_by_pages (some 100) [21, 77] fE
                (fun _ => true) folder).1).length =
              (computeSplitPoints ((100 : Nat) : Int) [21, 77]).length + 1 ∧
            (split_pdf_by_pages (some 100) [21, 77] fE
              (fun _ => true) folder).2 = Outcome.success) :=
  ⟨⟨by decide, by decide⟩, no_degenerate_chunks 100 [21, 77] (by decide) (by decide)⟩

/-- Claim C4 (fail-fast on write failure): if the first failing save is
the chunk at path `q`, then the run writes exactly the chunks before it
(which remain recorded in the trace — there is no rollback event), the
failing chunk is the last one attempted (exactly one more chunk document
is opened than there are successfully written chunks), every opened
chunk document is closed, the input document is closed, and the run
stops with a write-failure outcome for `q`. -/
theorem fail_fast_on_write (total_pages : Nat) (xs : List Int) (fE : Bool)
    (saveOk : String → Bool) (folder q : String)
    (h1 : 1 ≤ total_pages)
    (h2 : computeSplitPoints (total_pages : Int) xs ≠ [])
    (h3 : firstFailing saveOk (chunkPaths folder (adjacentPairs
      (boundaries (total_pages : Int)
        (computeSplitPoints (total_pages : Int) xs)))) = some q) :
    savedFiles (split_pdf_by_pages (some total_pages) xs fE saveOk folder).1 =
        succeedingPaths saveOk (chunkPaths folder (adjacentPairs
          (boundaries (total_pages : Int)
            (computeSplitPoints (total_pages : Int) xs)))) ∧
      (split_pdf_by_pages (some total_pages) xs fE saveOk folder).1.count
          Event.openNewDoc =
        (succeedingPaths saveOk (chunkPaths folder (adjacentPairs
          (boundaries (total_pages : Int)
            (computeSplitPoints (total_pages : Int) xs))))).length + 1 ∧
      (split_pdf_by_pages (some total_pages) xs fE saveOk folder).1.count
          Event.closeNewDoc =
        (split_pdf_by_pages (some total_pages) xs fE saveOk folder).1.count
          Event.openNewDoc ∧
      Event.closeDoc ∈ (split_pdf_by_pages (some total_pages) xs fE saveOk folder).1 ∧
      (split_pdf_by_pages (some total_pages) xs fE saveOk folder).2 =
        Outcome.writeFailure q := by
  have hff := writeChunks_first_fail saveOk folder
    (adjacentPairs (boundaries (total_pages : Int)
      (computeSplitPoints (total_pages : Int) xs)))
    (boundaries_pairs_nondegenerate total_pages xs h1) q h3
  rw [split_run total_pages xs fE saveOk folder h1 h2]
  refine ⟨?_, ?_, ?_, ?_, hff.2.2.2.2⟩
  · rw [savedFiles_append, mkdirPre_savedFiles, List.nil_append]
    exact hff.1
  · rw [List.count_append, mkdirPre_count fE folder Event.openNewDoc (by simp),
      Nat.zero_add]
    exact hff.2.1
  · rw [List.count_append, List.count_append,
      mkdirPre_count fE folder Event.openNewDoc (by simp),
      mkdirPre_count fE folder Event.closeNewDoc (by simp),
      Nat.zero_add, Nat.zero_add, hff.2.1, hff.2.2.1]
  · exact List.mem_append_right _ hff.2.2.2.1

/-- Witness for C4: a 100-page document split at `[21, 77]` where saving
the second chunk (pages 22–77) fails: only the first chunk is written,
exactly two chunk documents are opened and closed, the input document is
closed, and the outcome is a write failure for the second chunk's
path. -/
theorem fail_fast_on_write_witness :
    (1 ≤ 100 ∧
      computeSplitPoints ((100 : Nat) : Int) [21, 77] ≠ [] ∧
      firstFailing (fun s => !(s == "output_chunks/chunk_22_to_77.pdf"))
        (chunkPaths "output_chunks" (adjacentPairs
          (boundaries ((100 : Nat) : Int)
            (computeSplitPoints ((100 : Nat) : Int) [21, 77])))) =
        some "output_chunks/chunk_22_to_77.pdf") ∧
      (savedFiles (split_pdf_by_pages (some 100) [21, 77] false
            (fun s => !(s == "output_chunks/chunk_22_to_77.pdf"))
            "output_chunks").1 =
          succeedingPaths (fun s => !(s == "output_chunks/chunk_22_to_77.pdf"))
            (chunkPaths "output_chunks" (adjacentPairs
              (boundaries ((100 : Nat) : Int)
                (computeSplitPoints ((100 : Nat) : Int) [21, 77])))) ∧
        (split_pdf_by_pages (some 100) [21, 77] false
            (fun s => !(s == "output_chunks/chunk_22_to_77.pdf"))
            "output_chunks").1.count Event.openNewDoc =
          (succeedingPaths (fun s => !(s == "output_chunks/chunk_22_to_77.pdf"))
            (chunkPaths "output_chunks" (adjacentPairs
              (boundaries ((100 : Nat) : Int)
                (computeSplitPoints ((100 : Nat) : Int) [21, 77]))))).length + 1 ∧
        (split_pdf_by_pages (some 100) [21, 77] false
            (fun s => !(s == "output_chunks/chunk_22_to_77.pdf"))
            "output_chunks").1.count Event.closeNewDoc =
          (split_pdf_by_pages (some 100) [21, 77] false
            (fun s => !(s == "output_chunks/chunk_22_to_77.pdf"))
            "output_chunks").1.count Event.openNewDoc ∧
        Event.closeDoc ∈ (split_pdf_by_pages (some 100) [21, 77] false
            (fun s => !(s == "output_chunks/chunk_22_to_77.pdf"))
            "output_chunks").1 ∧
        (split_pdf_by_pages (some 100) [21, 77] false
            (fun s => !(s == "output_chunks/chunk_22_to_77.pdf"))
            "output_chunks").2 =
          Outcome.writeFailure "output_chunks/chunk_22_to_77.pdf") :=
  ⟨⟨by decide, by decide, by decide⟩,
    fail_fast_on_write 100 [21, 77] false
      (fun s => !(s == "output_chunks/chunk_22_to_77.pdf"))
      "output_chunks" "output_chunks/chunk_22_to_77.pdf"
      (by decide) (by decide) (by decide)⟩
